import Mathlib

/-!
# Verification of the templeton metadata-indexing worker

A shallow embedding of the core of `cyverse-de/templeton`: the streaming
object cursor over ordered AVU rows (`database/database.go`), the record
lookup `GetAVU`, the bulk write buffer (`esutils/bulkindexer.go` together
with the documented contract of the elastic bulk service it wraps), the
synchronization orchestrator (`elasticsearch/elasticsearch.go`:
`PurgeType`, `PurgeIndex`, `IndexEverything`, `Reindex`, `DeleteOne`,
`IndexOne`), and the incremental-mode message handler (`main.go`).

Machine state that in Go is mutated in place (cursor fields, the bulk
service's request queue) is passed explicitly; network effects are
recorded as explicit operation lists, with outcomes of external calls
(bulk submissions, document deletes/indexes, scroll pages, database
queries) supplied as parameters.
-/

namespace Templeton

/-- One row of attribute metadata, `model.AVURecord`
(fields as scanned in `database.avuRecordFromRow`; the Go field
`Attribute` is called `attr` here because `attribute` is reserved). -/
structure AVURecord where
  id : String
  attr : String
  value : String
  unit : String
  targetId : String
  targetType : String
  createdBy : String
  modifiedBy : String
  createdOn : Int
  modifiedOn : Int
deriving Repr, DecidableEq

/-- The zero value `model.AVURecord{TargetId: ""}` used as the cursor's
initial `lastRow` sentinel in `newObjectCursor`. -/
def sentinelAVU : AVURecord :=
  { id := "", attr := "", value := "", unit := "", targetId := ""
    targetType := "", createdBy := "", modifiedBy := "", createdOn := 0, modifiedOn := 0 }

/-! ## The streaming object cursor (`database.objectCursor`)

The underlying `sql.Rows` stream is embedded as the list of rows not yet
consumed; `rows.Next()` succeeds exactly when that list is nonempty. The
pure model never produces a scan error or a `rows.Err()`, so the only
signals `Next` can produce are a group of records or end-of-stream. -/

/-- Cursor state: the fields of `database.objectCursor`, with the
`*sql.Rows` handle replaced by the list of rows it has yet to deliver. -/
structure ObjectCursor where
  rows : List AVURecord
  lastRow : AVURecord
  moreRows : Bool
  anyRows : Bool
deriving Repr, DecidableEq

/-- `database.newObjectCursor`. -/
def newObjectCursor (rows : List AVURecord) : ObjectCursor :=
  { rows := rows, lastRow := sentinelAVU, moreRows := true, anyRows := false }

/-- Result of one `objectCursor.Next` call: either a completed group, or
`EOS`.  The flag on `eos` records whether the distinguished
"No metadata was found in the configured database." line was logged on
this call (it is logged only on the empty-stream path of `Next`). -/
inductive CursorSignal where
  | group (g : List AVURecord)
  | eos (loggedEmptyStream : Bool)
deriving Repr, DecidableEq

/-- The row-pulling loop inside `objectCursor.Next` (`for o.moreRows { ... }`).
Arguments mirror the mutated locals: current `lastRow`, remaining stream,
`retval` accumulated so far, and `anyRows`.  Returns the final
`(retval, lastRow, remaining stream, moreRows, anyRows)`. -/
def nextLoop : AVURecord → List AVURecord → List AVURecord → Bool →
    List AVURecord × AVURecord × List AVURecord × Bool × Bool
  | last, [], acc, anyR => (acc, last, [], false, anyR)
  | last, ar :: rest, acc, _ =>
    if last.targetId = "" ∨ last.targetId = ar.targetId then
      nextLoop ar rest (acc ++ [ar]) true
    else
      (acc, ar, rest, true, true)

/-- `objectCursor.Next`.  Top: an exhausted cursor signals `EOS`.
Otherwise the buffered `lastRow` opens the group (unless it is the
sentinel), the loop pulls rows, and a run that never saw any row logs the
empty-stream message and signals `EOS`. -/
def cursorNext (o : ObjectCursor) : CursorSignal × ObjectCursor :=
  if o.moreRows then
    let acc0 := if o.lastRow.targetId = "" then [] else [o.lastRow]
    match nextLoop o.lastRow o.rows acc0 o.anyRows with
    | (retval, last, rest, more, anyR) =>
      let o' : ObjectCursor := ⟨rest, last, more, anyR⟩
      if anyR then (CursorSignal.group retval, o') else (CursorSignal.eos true, o')
  else
    (CursorSignal.eos false, o)

/-- Repeatedly call `Next`, collecting the yielded groups, until `EOS`
(or until the fuel runs out; `cursorRun` supplies enough fuel that this
never happens). -/
def drainCursor : Nat → ObjectCursor → List (List AVURecord)
  | 0, _ => []
  | fuel + 1, o =>
    match cursorNext o with
    | (CursorSignal.group g, o') => g :: drainCursor fuel o'
    | (CursorSignal.eos _, _) => []

/-- The full run of the cursor over a row stream: all groups yielded by
calling `Next` until it signals `EOS`. -/
def cursorRun (rows : List AVURecord) : List (List AVURecord) :=
  drainCursor (rows.length + 1) (newObjectCursor rows)

/-- Specification-side grouping: split a list of rows into maximal runs
of adjacent rows sharing a `targetId`. -/
def chunksBy : List AVURecord → List (List AVURecord)
  | [] => []
  | a :: rest =>
    (a :: rest.takeWhile (fun r => r.targetId == a.targetId)) ::
      chunksBy (rest.dropWhile (fun r => r.targetId == a.targetId))
termination_by l => l.length
decreasing_by
  simp only [List.length_cons]
  exact Nat.lt_succ_of_le (List.Sublist.length_le (List.dropWhile_sublist _))

example : cursorRun [] = [] := by decide

/-- Shorthand for rows in examples: only `id`, `targetId`, `targetType`
matter to the components under verification. -/
def mkRow (i tid ttype : String) : AVURecord :=
  { sentinelAVU with id := i, targetId := tid, targetType := ttype }

example :
    cursorRun [mkRow "1" "a" "file", mkRow "2" "a" "file", mkRow "3" "b" "folder"] =
      [[mkRow "1" "a" "file", mkRow "2" "a" "file"], [mkRow "3" "b" "folder"]] := by decide

example :
    cursorNext (newObjectCursor []) =
      (CursorSignal.eos true, ⟨[], sentinelAVU, false, false⟩) := by decide

/-- Full description of the pulling loop of `Next` when entered with a
non-sentinel `lastRow`: it consumes exactly the rows sharing
`last.targetId`, appends them to the accumulator, and stops either at
stream end (`moreRows = false`) or buffering the first row of the next
group. -/
theorem nextLoop_spec (rows : List AVURecord) :
    ∀ (last : AVURecord) (acc : List AVURecord) (anyR : Bool),
      last.targetId ≠ "" → (∀ r ∈ rows, r.targetId ≠ "") →
      nextLoop last rows acc anyR =
        (acc ++ rows.takeWhile (fun r => r.targetId == last.targetId),
         (rows.dropWhile (fun r => r.targetId == last.targetId)).headD
           ((rows.takeWhile (fun r => r.targetId == last.targetId)).getLastD last),
         (rows.dropWhile (fun r => r.targetId == last.targetId)).tail,
         !(rows.dropWhile (fun r => r.targetId == last.targetId)).isEmpty,
         (anyR || !rows.isEmpty)) := by
  induction rows with
  | nil =>
    intro last acc anyR _ _
    simp [nextLoop]
  | cons ar rest ih =>
    intro last acc anyR hlast hrows
    have har : ar.targetId ≠ "" := hrows ar (List.mem_cons_self _ _)
    by_cases h : last.targetId = ar.targetId
    · have hcond : last.targetId = "" ∨ last.targetId = ar.targetId := Or.inr h
      have hbeq : (ar.targetId == last.targetId) = true := beq_iff_eq.mpr h.symm
      have hps : (fun r : AVURecord => r.targetId == last.targetId)
          = (fun r : AVURecord => r.targetId == ar.targetId) := by
        funext r; rw [h]
      rw [show nextLoop last (ar :: rest) acc anyR
            = if last.targetId = "" ∨ last.targetId = ar.targetId then
                nextLoop ar rest (acc ++ [ar]) true
              else (acc, ar, rest, true, true) from rfl,
        if_pos hcond,
        ih ar (acc ++ [ar]) true har (fun r hr => hrows r (List.mem_cons_of_mem _ hr))]
      simp [hps, hbeq, List.getLastD_cons, List.getLast?_cons]
    · have hcond : ¬ (last.targetId = "" ∨ last.targetId = ar.targetId) := by
        rintro (h1 | h2)
        · exact hlast h1
        · exact h h2
      have hbeq : ¬ ((ar.targetId == last.targetId) = true) := by
        simp only [beq_iff_eq]
        exact fun hh => h hh.symm
      rw [show nextLoop last (ar :: rest) acc anyR
            = if last.targetId = "" ∨ last.targetId = ar.targetId then
                nextLoop ar rest (acc ++ [ar]) true
              else (acc, ar, rest, true, true) from rfl,
        if_neg hcond]
      simp [hbeq]

/-- A cursor state as it is between two groups mid-run: the first row of
the next group is buffered in `lastRow`, the rest of the stream follows. -/
def midCursor (last : AVURecord) (rows : List AVURecord) : ObjectCursor :=
  ⟨rows, last, true, true⟩

/-- One `Next` call from a mid-run state yields the chunk opened by the
buffered row and leaves the cursor positioned at the next chunk (or
exhausted). -/
theorem cursorNext_mid (last : AVURecord) (rows : List AVURecord)
    (hlast : last.targetId ≠ "") (hrows : ∀ r ∈ rows, r.targetId ≠ "") :
    cursorNext (midCursor last rows) =
      (CursorSignal.group (last :: rows.takeWhile (fun r => r.targetId == last.targetId)),
       ⟨(rows.dropWhile (fun r => r.targetId == last.targetId)).tail,
        (rows.dropWhile (fun r => r.targetId == last.targetId)).headD
          ((rows.takeWhile (fun r => r.targetId == last.targetId)).getLastD last),
        !(rows.dropWhile (fun r => r.targetId == last.targetId)).isEmpty,
        true⟩) := by
  rw [show cursorNext (midCursor last rows)
        = (if (midCursor last rows).moreRows then
            let acc0 := if (midCursor last rows).lastRow.targetId = "" then []
              else [(midCursor last rows).lastRow]
            match nextLoop (midCursor last rows).lastRow (midCursor last rows).rows acc0
                (midCursor last rows).anyRows with
            | (retval, l, rest, more, anyR) =>
              let o' : ObjectCursor := ⟨rest, l, more, anyR⟩
              if anyR then (CursorSignal.group retval, o') else (CursorSignal.eos true, o')
          else (CursorSignal.eos false, midCursor last rows)) from rfl]
  simp only [midCursor, if_true]
  rw [if_neg hlast, nextLoop_spec rows last [last] true hlast hrows]
  simp

/-- Draining an exhausted cursor yields nothing, whatever the fuel: the
first `Next` call signals `EOS` at once. -/
theorem drainCursor_dead (fuel : Nat) (o : ObjectCursor) (h : o.moreRows = false) :
    drainCursor fuel o = [] := by
  cases fuel with
  | zero => rfl
  | succ n => simp [drainCursor, cursorNext, h]

/-- `drainCursor` inspects the state only through `cursorNext`. -/
theorem drainCursor_congr (fuel : Nat) (o₁ o₂ : ObjectCursor)
    (h : cursorNext o₁ = cursorNext o₂) :
    drainCursor (fuel + 1) o₁ = drainCursor (fuel + 1) o₂ := by
  simp only [drainCursor, h]

/-- Draining the cursor from a mid-run state produces exactly the
adjacent-equal-`targetId` chunks of the remaining rows. -/
theorem drainCursor_mid :
    ∀ (fuel : Nat) (last : AVURecord) (rows : List AVURecord),
      last.targetId ≠ "" → (∀ r ∈ rows, r.targetId ≠ "") → rows.length < fuel →
      drainCursor fuel (midCursor last rows) = chunksBy (last :: rows) := by
  intro fuel
  induction fuel with
  | zero =>
    intro last rows _ _ hlen
    exact absurd hlen (Nat.not_lt_zero _)
  | succ n ih =>
    intro last rows hlast hrows hlen
    rw [show drainCursor (n + 1) (midCursor last rows)
          = (match cursorNext (midCursor last rows) with
             | (CursorSignal.group g, o') => g :: drainCursor n o'
             | (CursorSignal.eos _, _) => []) from rfl,
      cursorNext_mid last rows hlast hrows]
    rw [show chunksBy (last :: rows)
          = (last :: rows.takeWhile (fun r => r.targetId == last.targetId)) ::
              chunksBy (rows.dropWhile (fun r => r.targetId == last.targetId)) from by
        rw [chunksBy]]
    cases hdw : rows.dropWhile (fun r => r.targetId == last.targetId) with
    | nil =>
      simp only [hdw, List.tail_nil, List.isEmpty_nil, Bool.not_true]
      rw [drainCursor_dead n _ rfl, chunksBy]
    | cons b tl =>
      simp only [hdw, List.tail_cons, List.headD_cons, List.isEmpty_cons, Bool.not_false]
      have hbmem : b ∈ rows := by
        have : b ∈ rows.dropWhile (fun r => r.targetId == last.targetId) := by
          rw [hdw]; exact List.mem_cons_self _ _
        exact (List.dropWhile_sublist _).mem this
      have htl : ∀ r ∈ tl, r.targetId ≠ "" := by
        intro r hr
        have : r ∈ rows.dropWhile (fun r => r.targetId == last.targetId) := by
          rw [hdw]; exact List.mem_cons_of_mem _ hr
        exact hrows r ((List.dropWhile_sublist _).mem this)
      have hlen' : tl.length < n := by
        have h1 : tl.length + 1 = (rows.dropWhile (fun r => r.targetId == last.targetId)).length := by
          rw [hdw]; rfl
        have h2 : (rows.dropWhile (fun r => r.targetId == last.targetId)).length ≤ rows.length :=
          (List.dropWhile_sublist _).length_le
        omega
      exact congrArg (List.cons _) (ih b tl (hrows b hbmem) htl hlen')

/-- The first `Next` call on a fresh cursor over a nonempty stream
behaves like a mid-run call buffered at the first row: the sentinel
`lastRow` contributes nothing and the loop's first pull seeds the group
with the first row. -/
theorem cursorNext_init_cons (a : AVURecord) (rest : List AVURecord) (ha : a.targetId ≠ "") :
    cursorNext (newObjectCursor (a :: rest)) = cursorNext (midCursor a rest) := by
  have h1 : nextLoop sentinelAVU (a :: rest) [] false = nextLoop a rest [a] true := by
    rw [show nextLoop sentinelAVU (a :: rest) [] false
          = if sentinelAVU.targetId = "" ∨ sentinelAVU.targetId = a.targetId then
              nextLoop a rest ([] ++ [a]) true
            else ([], a, rest, true, true) from rfl,
      if_pos (show sentinelAVU.targetId = "" ∨ sentinelAVU.targetId = a.targetId
        from Or.inl rfl)]
    rfl
  unfold cursorNext
  simp only [newObjectCursor, midCursor, if_true]
  rw [if_pos (show sentinelAVU.targetId = "" from rfl), if_neg ha, h1]

/-- The full cursor run groups the stream into its adjacent-`targetId`
chunks (for AVU rows, whose `targetId` is a nonempty UUID string). -/
theorem cursorRun_eq_chunksBy (rows : List AVURecord)
    (hrows : ∀ r ∈ rows, r.targetId ≠ "") :
    cursorRun rows = chunksBy rows := by
  cases rows with
  | nil => simp [cursorRun, drainCursor, cursorNext, newObjectCursor, nextLoop, chunksBy]
  | cons a rest =>
    have ha : a.targetId ≠ "" := hrows a (List.mem_cons_self _ _)
    show drainCursor (rest.length + 1 + 1) (newObjectCursor (a :: rest)) = _
    rw [drainCursor_congr (rest.length + 1) _ _ (cursorNext_init_cons a rest ha)]
    exact drainCursor_mid (rest.length + 2) a rest ha
      (fun r hr => hrows r (List.mem_cons_of_mem _ hr)) (by omega)

/-- Concatenating the chunks gives back the original rows: no row is
lost, duplicated, or reordered. -/
theorem chunksBy_flatten (l : List AVURecord) : (chunksBy l).flatten = l := by
  induction l using chunksBy.induct with
  | case1 => simp [chunksBy]
  | case2 a rest ih =>
    rw [chunksBy]
    simp only [List.flatten_cons]
    rw [List.cons_append, ih, List.takeWhile_append_dropWhile]

/-- A row kept by the leading-run `takeWhile` shares the run's `targetId`. -/
theorem targetId_eq_of_mem_takeWhile {a r : AVURecord} {l : List AVURecord}
    (h : r ∈ l.takeWhile (fun x => x.targetId == a.targetId)) :
    r.targetId = a.targetId := by
  have h2 := List.mem_takeWhile_imp h
  simpa using h2

/-- Every chunk is nonempty and homogeneous in `targetId`. -/
theorem chunksBy_groups (l : List AVURecord) :
    ∀ g ∈ chunksBy l, g ≠ [] ∧ ∀ r ∈ g, r.targetId = (g.headD sentinelAVU).targetId := by
  induction l using chunksBy.induct with
  | case1 => simp [chunksBy]
  | case2 a rest ih =>
    rw [chunksBy]
    intro g hg
    rcases List.mem_cons.mp hg with rfl | hg'
    · refine ⟨by simp, ?_⟩
      intro r hr
      rcases List.mem_cons.mp hr with rfl | hr'
      · rfl
      · exact targetId_eq_of_mem_takeWhile hr'
    · exact ih g hg'

/-- A row of a chunk is a row of the input. -/
theorem chunksBy_mem (l : List AVURecord) {g : List AVURecord} {r : AVURecord}
    (hg : g ∈ chunksBy l) (hr : r ∈ g) : r ∈ l := by
  rw [← chunksBy_flatten l]
  exact List.mem_flatten.mpr ⟨g, hg, hr⟩

/-- In a `targetId`-sorted tail, once the leading run of rows equal to
`a.targetId` has been dropped, that id never occurs again. -/
theorem dropWhile_targetId_ne (a : AVURecord) (l : List AVURecord) :
    l.Pairwise (fun x y => x.targetId ≤ y.targetId) →
    (∀ x ∈ l, a.targetId ≤ x.targetId) →
    ∀ r ∈ l.dropWhile (fun x => x.targetId == a.targetId), r.targetId ≠ a.targetId := by
  induction l with
  | nil =>
    intro _ _ r hr
    simp at hr
  | cons c cs ih =>
    intro hp hle
    by_cases hc : (c.targetId == a.targetId) = true
    · simp only [List.dropWhile_cons, hc, if_true]
      exact ih (List.pairwise_cons.mp hp).2 (fun x hx => hle x (List.mem_cons_of_mem _ hx))
    · simp only [List.dropWhile_cons, hc, if_false]
      intro r hr hra
      rcases List.mem_cons.mp hr with rfl | hr'
      · exact hc (beq_iff_eq.mpr hra)
      · have hac : a.targetId ≤ c.targetId := hle c (List.mem_cons_self _ _)
        have hcr : c.targetId ≤ r.targetId := (List.pairwise_cons.mp hp).1 r hr'
        exact hc (beq_iff_eq.mpr (le_antisymm (hra ▸ hcr) hac))

/-- On a `targetId`-sorted input, each present `targetId` is caught by
exactly one chunk, and an absent one by none. -/
theorem chunksBy_count (l : List AVURecord) :
    l.Pairwise (fun x y => x.targetId ≤ y.targetId) →
    ∀ t, ((chunksBy l).filter (fun g => g.any (fun r => r.targetId == t))).length
      = if t ∈ l.map (fun r => r.targetId) then 1 else 0 := by
  induction l using chunksBy.induct with
  | case1 =>
    intro _ t
    simp [chunksBy]
  | case2 a rest ih =>
    intro hp t
    have hle : ∀ x ∈ rest, a.targetId ≤ x.targetId := (List.pairwise_cons.mp hp).1
    have hp' : rest.Pairwise (fun x y => x.targetId ≤ y.targetId) :=
      (List.pairwise_cons.mp hp).2
    have hdw : ∀ r ∈ rest.dropWhile (fun x => x.targetId == a.targetId),
        r.targetId ≠ a.targetId := dropWhile_targetId_ne a rest hp' hle
    have hpdw : (rest.dropWhile (fun x => x.targetId == a.targetId)).Pairwise
        (fun x y => x.targetId ≤ y.targetId) :=
      List.Pairwise.sublist (List.dropWhile_sublist _) hp'
    rw [chunksBy]
    by_cases ht : t = a.targetId
    · subst ht
      have hany : ((a :: rest.takeWhile (fun r => r.targetId == a.targetId)).any
          (fun r => r.targetId == a.targetId)) = true := by
        simp
      have hnil : ((chunksBy (rest.dropWhile (fun r => r.targetId == a.targetId))).filter
          (fun g => g.any (fun r => r.targetId == a.targetId))) = [] := by
        apply List.filter_eq_nil_iff.mpr
        intro g hg
        simp only [List.any_eq_true, not_exists, not_and]
        intro r hr hre
        exact hdw r (chunksBy_mem _ hg hr) (beq_iff_eq.mp hre)
      rw [List.filter_cons, if_pos hany, List.length_cons, hnil]
      simp
    · have hany : ((a :: rest.takeWhile (fun r => r.targetId == a.targetId)).any
          (fun r => r.targetId == t)) = false := by
        apply List.any_eq_false.mpr
        intro r hr
        rcases List.mem_cons.mp hr with rfl | hr'
        · simp only [beq_iff_eq]
          exact fun hre => ht hre.symm
        · have : r.targetId = a.targetId := targetId_eq_of_mem_takeWhile hr'
          simp only [beq_iff_eq, this]
          exact fun hre => ht hre.symm
      rw [List.filter_cons, if_neg (by simp [hany]), ih hpdw t]
      have hmem : t ∈ (rest.dropWhile (fun r => r.targetId == a.targetId)).map
            (fun r => r.targetId)
          ↔ t ∈ (a :: rest).map (fun r => r.targetId) := by
        simp only [List.mem_map, List.map_cons, List.mem_cons]
        constructor
        · rintro ⟨r, hr, rfl⟩
          exact Or.inr ⟨r, (List.dropWhile_sublist _).mem hr, rfl⟩
        · rintro (h1 | ⟨r, hr, rfl⟩)
          · exact absurd h1 ht
          · rw [← List.takeWhile_append_dropWhile
                (p := fun r : AVURecord => r.targetId == a.targetId) (l := rest)] at hr
            rcases List.mem_append.mp hr with h1 | h2
            · exact absurd (targetId_eq_of_mem_takeWhile h1) ht
            · exact ⟨r, h2, rfl⟩
      exact if_congr hmem rfl rfl

/-- On a `targetId`-sorted input, the number of chunks is the number of
distinct `targetId`s. -/
theorem chunksBy_length (l : List AVURecord) :
    l.Pairwise (fun x y => x.targetId ≤ y.targetId) →
    (chunksBy l).length = (l.map (fun r => r.targetId)).toFinset.card := by
  induction l using chunksBy.induct with
  | case1 =>
    intro _
    simp [chunksBy]
  | case2 a rest ih =>
    intro hp
    have hle : ∀ x ∈ rest, a.targetId ≤ x.targetId := (List.pairwise_cons.mp hp).1
    have hp' : rest.Pairwise (fun x y => x.targetId ≤ y.targetId) :=
      (List.pairwise_cons.mp hp).2
    have hdw : ∀ r ∈ rest.dropWhile (fun x => x.targetId == a.targetId),
        r.targetId ≠ a.targetId := dropWhile_targetId_ne a rest hp' hle
    have hpdw : (rest.dropWhile (fun x => x.targetId == a.targetId)).Pairwise
        (fun x y => x.targetId ≤ y.targetId) :=
      List.Pairwise.sublist (List.dropWhile_sublist _) hp'
    rw [chunksBy, List.length_cons, ih hpdw]
    have hset : ((a :: rest).map (fun r => r.targetId)).toFinset
        = insert a.targetId
            (((rest.dropWhile (fun r => r.targetId == a.targetId)).map
              (fun r => r.targetId)).toFinset) := by
      ext x
      simp only [List.mem_toFinset, List.map_cons, List.mem_cons, List.mem_map,
        Finset.mem_insert]
      constructor
      · rintro (rfl | ⟨r, hr, rfl⟩)
        · exact Or.inl rfl
        · rw [← List.takeWhile_append_dropWhile
              (p := fun r : AVURecord => r.targetId == a.targetId) (l := rest)] at hr
          rcases List.mem_append.mp hr with h1 | h2
          · exact Or.inl (targetId_eq_of_mem_takeWhile h1)
          · exact Or.inr ⟨r, h2, rfl⟩
      · rintro (rfl | ⟨r, hr, rfl⟩)
        · exact Or.inl rfl
        · exact Or.inr ⟨r, (List.dropWhile_sublist _).mem hr, rfl⟩
    rw [hset, Finset.card_insert_of_not_mem]
    simp only [List.mem_toFinset, List.mem_map, not_exists, not_and]
    intro r hr hre
    exact hdw r hr hre

/-- C1: for every non-empty sequence of AVU rows pre-sorted by `targetId`
(AVU `targetId`s are nonempty UUID strings), draining the object cursor
partitions the rows into groups: concatenating the groups restores the
input exactly, no group is empty, each `targetId` occurring in the input
is contained in exactly one group (and an absent one in none), and the
number of groups is the number of distinct `targetId`s. -/
theorem cursor_partitions_sorted_rows (rows : List AVURecord)
    (hne : rows ≠ [])
    (hids : ∀ r ∈ rows, r.targetId ≠ "")
    (hsorted : rows.Pairwise (fun x y => x.targetId ≤ y.targetId)) :
    (cursorRun rows).flatten = rows ∧
    (∀ g ∈ cursorRun rows, g ≠ []) ∧
    (∀ t, ((cursorRun rows).filter (fun g => g.any (fun r => r.targetId == t))).length
        = if t ∈ rows.map (fun r => r.targetId) then 1 else 0) ∧
    (cursorRun rows).length = (rows.map (fun r => r.targetId)).toFinset.card := by
  have _ := hne
  rw [cursorRun_eq_chunksBy rows hids]
  exact ⟨chunksBy_flatten rows, fun g hg => (chunksBy_groups rows g hg).1,
    chunksBy_count rows hsorted, chunksBy_length rows hsorted⟩

/-- Witness for C1 at a concrete sorted stream of three rows over two objects. -/
theorem cursor_partitions_sorted_rows_witness :
    (cursorRun [mkRow "1" "a" "file", mkRow "2" "a" "file", mkRow "3" "b" "folder"]).flatten
        = [mkRow "1" "a" "file", mkRow "2" "a" "file", mkRow "3" "b" "folder"] ∧
    (cursorRun [mkRow "1" "a" "file", mkRow "2" "a" "file", mkRow "3" "b" "folder"]).length
        = ([mkRow "1" "a" "file", mkRow "2" "a" "file", mkRow "3" "b" "folder"].map
            (fun r => r.targetId)).toFinset.card := by
  have h := cursor_partitions_sorted_rows
    [mkRow "1" "a" "file", mkRow "2" "a" "file", mkRow "3" "b" "folder"]
    (by decide) (by decide)
    (by simp [List.pairwise_cons, mkRow, sentinelAVU, String.le_iff_toList_le]; decide)
  exact ⟨h.1, h.2.2.2⟩

/-- C8: on an empty underlying row stream the cursor signals end-of-stream
on the very first `Next` call, logging the distinguished empty-stream
message (a normal completion, i.e. `Next` on an exhausted cursor, signals
`EOS` without that log); the run yields no group at all, whatever the
fuel. -/
theorem cursor_empty_stream_eos :
    (cursorNext (newObjectCursor [])).1 = CursorSignal.eos true ∧
    (∀ fuel, drainCursor fuel (newObjectCursor []) = []) ∧
    (∀ o : ObjectCursor, o.moreRows = false → (cursorNext o).1 = CursorSignal.eos false) := by
  refine ⟨by decide, ?_, ?_⟩
  · intro fuel
    cases fuel <;> rfl
  · intro o h
    simp [cursorNext, h]

/-- Witness for C8: the cursor run over the empty stream yields nothing,
and an exhausted cursor signals a plain `EOS`. -/
theorem cursor_empty_stream_eos_witness :
    drainCursor 5 (newObjectCursor []) = [] ∧
    (cursorNext ⟨[], sentinelAVU, false, false⟩).1 = CursorSignal.eos false :=
  ⟨cursor_empty_stream_eos.2.1 5,
   cursor_empty_stream_eos.2.2 ⟨[], sentinelAVU, false, false⟩ rfl⟩

/-! ## Record lookup (`Databaser.GetAVU`)

The recursive query's result set for `WHERE id = $1` is embedded as the
list of rows it returns. `GetAVU` scans the first row, errors with
`sql.ErrNoRows` when there is none, and flags a second row as an
integrity fault; like the Go function it returns the scanned record
alongside the more-than-one-row error. -/

/-- Errors surfaced by `GetAVU`: `sql.ErrNoRows` for an empty result set,
and the `"AVU Query for %s returned more than one row"` error. -/
inductive DbErr where
  | errNoRows
  | moreThanOneRow
deriving Repr, DecidableEq

/-- `Databaser.GetAVU`, over the rows its query returns: the Go pair
`(*model.AVURecord, error)`. -/
def GetAVU (queryRows : List AVURecord) : Option AVURecord × Option DbErr :=
  match queryRows with
  | [] => (none, some DbErr.errNoRows)
  | [ar] => (some ar, none)
  | ar :: _ :: _ => (some ar, some DbErr.moreThanOneRow)

/-- C9: `GetAVU` succeeds with no error exactly when the query yields one
row; zero rows fail with the not-found error (`sql.ErrNoRows`), more than
one row with the ambiguity error; whenever a row exists the first one is
returned. -/
theorem GetAVU_spec (queryRows : List AVURecord) :
    ((GetAVU queryRows).2 = none ↔ queryRows.length = 1) ∧
    ((GetAVU queryRows).2 = some DbErr.errNoRows ↔ queryRows = []) ∧
    ((GetAVU queryRows).2 = some DbErr.moreThanOneRow ↔ 2 ≤ queryRows.length) ∧
    (∀ a tl, queryRows = a :: tl → (GetAVU queryRows).1 = some a) := by
  match queryRows with
  | [] =>
    refine ⟨by simp [GetAVU], by simp [GetAVU], by simp [GetAVU], ?_⟩
    intro a tl h
    exact absurd h (by simp)
  | [ar] =>
    refine ⟨by simp [GetAVU], by simp [GetAVU], by simp [GetAVU], ?_⟩
    intro a tl h
    rw [GetAVU]
    rw [List.cons.injEq] at h
    rw [h.1]
  | ar :: b :: tl =>
    refine ⟨by simp [GetAVU], by simp [GetAVU], by simp [GetAVU], ?_⟩
    intro a tl' h
    rw [GetAVU]
    rw [List.cons.injEq] at h
    rw [h.1]

/-- Witness for C9 on zero-, one- and two-row result sets. -/
theorem GetAVU_spec_witness :
    (GetAVU ([] : List AVURecord)).2 = some DbErr.errNoRows ∧
    (GetAVU [mkRow "1" "a" "file"]).2 = none ∧
    (GetAVU [mkRow "1" "a" "file", mkRow "1x" "a" "file"]).2 = some DbErr.moreThanOneRow ∧
    (GetAVU [mkRow "1" "a" "file"]).1 = some (mkRow "1" "a" "file") :=
  ⟨(GetAVU_spec []).2.1.mpr rfl,
   (GetAVU_spec [mkRow "1" "a" "file"]).1.mpr rfl,
   (GetAVU_spec [mkRow "1" "a" "file", mkRow "1x" "a" "file"]).2.2.1.mpr (by decide),
   (GetAVU_spec [mkRow "1" "a" "file"]).2.2.2 (mkRow "1" "a" "file") [] rfl⟩

/-! ## Documents and the document builder -/

/-- Modelled from the spec: the source of the `model` package is not part
of the available sources. An Indexed Document (§3) carries the root
object's `targetID` as its `ID`, plus the attribute data; the exact
nested field layout is explicitly left open by the spec (§9) and is never
inspected by the claims, which depend only on the `ID` and on whether the
build succeeds. -/
structure IndexedObject where
  id : String
  avus : List AVURecord
deriving Repr, DecidableEq

/-- Errors of the document builder: `model.ErrNoAVUs` for an empty
bundle, and a data-integrity fault for a bundle mixing `targetId`s or
`targetType`s (§4.3). -/
inductive ModelErr where
  | errNoAVUs
  | integrityFault
deriving Repr, DecidableEq

/-- Modelled from the spec: `model.AVUsToIndexedObject` (§4.3) — fails
with `ErrNoAVUs` when the bundle is empty; all AVUs of one bundle must
share the root's `targetId` and `targetType`, a mismatch being a
data-integrity fault; otherwise the document's `ID` is the shared
`targetId`. -/
def AVUsToIndexedObject (avus : List AVURecord) : Except ModelErr IndexedObject :=
  match avus with
  | [] => Except.error ModelErr.errNoAVUs
  | a :: rest =>
    if rest.all (fun r => r.targetId == a.targetId && r.targetType == a.targetType) then
      Except.ok { id := a.targetId, avus := a :: rest }
    else
      Except.error ModelErr.integrityFault

/-! ## The bulk write buffer (`esutils.BulkIndexer`)

The wrapped elastic `BulkService` is embedded as its queue of pending
requests.  Per the bulk service's contract the request list is cleared
only by a successful `Do`; submission outcomes come from a `submitOk`
oracle.  Every function returns, alongside its Go results, the list of
search-index operations it performed. -/

/-- A single bulkable mutation request (`elastic.BulkIndexRequest` /
`elastic.BulkDeleteRequest` as built in `elasticsearch.go`). -/
inductive BulkRequest where
  | indexReq (indexedType : String) (id : String) (doc : IndexedObject)
  | deleteReq (indexedType : String) (id : String)
deriving Repr, DecidableEq

/-- Operations against the search index, as recorded by the embedding. -/
inductive EsOp where
  | scrollPage (indexedType : String)
  | bulkSubmit (batch : List BulkRequest)
  | deleteDoc (indexedType : String) (id : String)
  | indexDoc (indexedType : String) (id : String) (doc : IndexedObject)
deriving Repr, DecidableEq

/-- The elastic `BulkService`: its queue of pending requests. -/
structure BulkService where
  requests : List BulkRequest
deriving Repr, DecidableEq

/-- `esutils.BulkIndexer`: the configured threshold plus the wrapped bulk
service. -/
structure BulkIndexer where
  bulkSize : Nat
  bulkService : BulkService
deriving Repr, DecidableEq

/-- `esutils.NewBulkIndexer` (`es.Bulk()` starts empty). -/
def NewBulkIndexer (bulkSize : Nat) : BulkIndexer := ⟨bulkSize, ⟨[]⟩⟩

/-- `BulkIndexer.Flush`: submit the whole queue as one batch via
`bulkService.Do`.  On success the indexer installs a fresh `es.Bulk()`
service; on failure the error is returned at once, and the bulk service
(which clears its requests only on success) keeps the batch.  Returns
(error?, indexer afterwards, operations performed). -/
def BulkIndexer.Flush (submitOk : List BulkRequest → Bool) (b : BulkIndexer) :
    Except Unit Unit × BulkIndexer × List EsOp :=
  if submitOk b.bulkService.requests then
    (Except.ok (), { b with bulkService := ⟨[]⟩ },
      [EsOp.bulkSubmit b.bulkService.requests])
  else
    (Except.error (), b, [EsOp.bulkSubmit b.bulkService.requests])

/-- `BulkIndexer.Add`: append the request to the bulk service; if
`NumberOfActions()` has reached `bulkSize`, flush before returning,
propagating a flush failure to the caller. -/
def BulkIndexer.Add (submitOk : List BulkRequest → Bool) (b : BulkIndexer) (r : BulkRequest) :
    Except Unit Unit × BulkIndexer × List EsOp :=
  let b1 : BulkIndexer := { b with bulkService := ⟨b.bulkService.requests ++ [r]⟩ }
  if b1.bulkSize ≤ b1.bulkService.requests.length then
    b1.Flush submitOk
  else
    (Except.ok (), b1, [])

/-- C3 counterexample: after a `Flush` whose batch submission fails, the
queue is NOT empty — the failed batch is retained, contradicting "leaves
the queue empty afterward regardless of whether the submission succeeded
or failed" and "not retained for a later retry". -/
theorem flush_failure_keeps_queue_counterexample :
    ((BulkIndexer.Flush (fun _ => false)
        ⟨1000, ⟨[BulkRequest.deleteReq "file_metadata" "x"]⟩⟩).2.1).bulkService.requests
      = [BulkRequest.deleteReq "file_metadata" "x"] ∧
    (BulkIndexer.Flush (fun _ => false)
        ⟨1000, ⟨[BulkRequest.deleteReq "file_metadata" "x"]⟩⟩).1
      = Except.error () := by
  constructor <;> rfl

/-- C3 (amended): `Flush` always submits the entire queue as one batch;
on success the queue is left empty; on a submission failure the error is
propagated to the caller and the buffer retains the failed batch
unchanged (it is cleared only by a later successful flush). -/
theorem flush_spec (b : BulkIndexer) (submitOk : List BulkRequest → Bool) :
    (b.Flush submitOk).2.2 = [EsOp.bulkSubmit b.bulkService.requests] ∧
    (submitOk b.bulkService.requests = true →
      b.Flush submitOk = (Except.ok (), { b with bulkService := ⟨[]⟩ },
        [EsOp.bulkSubmit b.bulkService.requests])) ∧
    (submitOk b.bulkService.requests = false →
      b.Flush submitOk = (Except.error (), b,
        [EsOp.bulkSubmit b.bulkService.requests])) := by
  by_cases h : submitOk b.bulkService.requests = true
  · simp [BulkIndexer.Flush, h]
  · simp only [Bool.not_eq_true] at h
    simp [BulkIndexer.Flush, h]

/-- Witness for C3 (amended) at a one-element queue, in both the
successful and the failing submission case. -/
theorem flush_spec_witness :
    BulkIndexer.Flush (fun _ => true) ⟨2, ⟨[BulkRequest.deleteReq "file_metadata" "y"]⟩⟩
      = (Except.ok (), ⟨2, ⟨[]⟩⟩,
          [EsOp.bulkSubmit [BulkRequest.deleteReq "file_metadata" "y"]]) ∧
    BulkIndexer.Flush (fun _ => false) ⟨2, ⟨[BulkRequest.deleteReq "file_metadata" "y"]⟩⟩
      = (Except.error (), ⟨2, ⟨[BulkRequest.deleteReq "file_metadata" "y"]⟩⟩,
          [EsOp.bulkSubmit [BulkRequest.deleteReq "file_metadata" "y"]]) :=
  ⟨(flush_spec ⟨2, ⟨[BulkRequest.deleteReq "file_metadata" "y"]⟩⟩ (fun _ => true)).2.1 rfl,
   (flush_spec ⟨2, ⟨[BulkRequest.deleteReq "file_metadata" "y"]⟩⟩ (fun _ => false)).2.2 rfl⟩

/-- C5 counterexample: with threshold `bulkSize = 1` and failing
submissions, after the second `Add` returns the queue holds 2 > 1 pending
mutations — the triggered flushes fail and the queue grows past the
threshold, contradicting "never holds more than bulkSize pending
mutations after any add() call returns". -/
theorem add_exceeds_threshold_counterexample :
    (((NewBulkIndexer 1).Add (fun _ => false)
        (BulkRequest.deleteReq "file_metadata" "x1")).2.1.Add (fun _ => false)
        (BulkRequest.deleteReq "file_metadata" "x2")).2.1.bulkSize = 1 ∧
    (((NewBulkIndexer 1).Add (fun _ => false)
        (BulkRequest.deleteReq "file_metadata" "x1")).2.1.Add (fun _ => false)
        (BulkRequest.deleteReq "file_metadata" "x2")).2.1.bulkService.requests.length = 2 := by
  constructor <;> rfl

/-- C5 (amended): provided the queue is below the threshold when `Add` is
called (the steady state while flushes succeed, `bulkSize ≥ 1`): if `Add`
returns without error the queue is again strictly below the threshold;
reaching the threshold triggers an immediate flush of the whole queue
before `Add` returns; and if that flush fails, the error is propagated
and the failed batch — old queue plus new mutation — stays queued. -/
theorem add_spec (b : BulkIndexer) (r : BulkRequest) (submitOk : List BulkRequest → Bool)
    (hpos : 1 ≤ b.bulkSize) (hinv : b.bulkService.requests.length < b.bulkSize) :
    ((b.Add submitOk r).1 = Except.ok () →
      (b.Add submitOk r).2.1.bulkService.requests.length < b.bulkSize) ∧
    (b.bulkSize ≤ b.bulkService.requests.length + 1 →
      (b.Add submitOk r).2.2 = [EsOp.bulkSubmit (b.bulkService.requests ++ [r])]) ∧
    ((b.Add submitOk r).1 = Except.error () →
      (b.Add submitOk r).2.1.bulkService.requests = b.bulkService.requests ++ [r]) := by
  by_cases hthr : b.bulkSize ≤ b.bulkService.requests.length + 1
  · by_cases hok : submitOk (b.bulkService.requests ++ [r]) = true
    · simp [BulkIndexer.Add, BulkIndexer.Flush, hthr, hok]
      omega
    · simp only [Bool.not_eq_true] at hok
      simp [BulkIndexer.Add, BulkIndexer.Flush, hthr, hok]
  · simp [BulkIndexer.Add, hthr]
    omega

/-- Witness for C5 (amended): an `Add` below the threshold keeps the
queue below the threshold, and an `Add` reaching threshold 1 submits the
whole queue before returning. -/
theorem add_spec_witness :
    (((NewBulkIndexer 2).Add (fun _ => true)
        (BulkRequest.deleteReq "folder_metadata" "w")).2.1.bulkService.requests.length < 2) ∧
    ((NewBulkIndexer 1).Add (fun _ => true)
        (BulkRequest.deleteReq "folder_metadata" "w")).2.2
      = [EsOp.bulkSubmit [BulkRequest.deleteReq "folder_metadata" "w"]] :=
  ⟨(add_spec (NewBulkIndexer 2) (BulkRequest.deleteReq "folder_metadata" "w")
      (fun _ => true) (by decide) (by decide)).1 rfl,
   (add_spec (NewBulkIndexer 1) (BulkRequest.deleteReq "folder_metadata" "w")
      (fun _ => true) (by decide) (by decide)).2.1 (by decide)⟩

/-! ## The synchronization orchestrator (`elasticsearch.go`)

The database is embedded as a function from an object id to the result
of `GetObjectAVUs`; single-document delete/index outcomes and scroll
contents come from explicit parameters.  `logrus.Fatal` terminates the
process (`os.Exit(1)`), on which deferred calls do not run; the embedding
records this as an explicit process-exit flag. -/

/-- `knownTypes` of `elasticsearch.go`. -/
def knownTypes (t : String) : Bool := t == "file" || t == "folder"

/-- An error returned by a single-document Elasticsearch call; a delete
of a document that does not exist reports `notFound`. -/
inductive EsErr where
  | notFound
  | other
deriving Repr, DecidableEq

/-- `Elasticer.DeleteOne`: issue one delete per indexed type for the id.
Errors are logged only when BOTH deletes failed (for an object holding at
most one of the two document types, the inevitable `notFound` of the
other type — and any single-sided failure — is silently tolerated); the
function always returns normally.  `delOut ty id` is the outcome the
index reports for the delete.  Returns (operations, whether the error
log lines were emitted). -/
def DeleteOne (delOut : String → String → Option EsErr) (id : String) :
    List EsOp × Bool :=
  ([EsOp.deleteDoc "file_metadata" id, EsOp.deleteDoc "folder_metadata" id],
   (delOut "file_metadata" id).isSome && (delOut "folder_metadata" id).isSome)

/-- How one `IndexOne` call ended. -/
inductive IndexOneResult where
  | dbFailed
  | deleted (bothDeleteCallsFailed : Bool)
  | buildFailed
  | indexed (indexErrLogged : Bool)
  | skippedUnknownType
deriving Repr, DecidableEq

/-- `Elasticer.IndexOne`: fetch the object's AVUs (`db id`); on a fetch
error log and return.  If the builder reports `ErrNoAVUs`, delete the
object's documents via `DeleteOne` and return; any other build error is
logged and returns.  Otherwise, for a known target type, issue one
synchronous index request (`idxOut` supplies its outcome, logged only);
unknown types issue nothing. -/
def IndexOne (db : String → Except Unit (List AVURecord))
    (delOut idxOut : String → String → Option EsErr) (id : String) :
    List EsOp × IndexOneResult :=
  match db id with
  | Except.error _ => ([], IndexOneResult.dbFailed)
  | Except.ok avus =>
    match AVUsToIndexedObject avus with
    | Except.error ModelErr.errNoAVUs =>
      ((DeleteOne delOut id).1, IndexOneResult.deleted (DeleteOne delOut id).2)
    | Except.error ModelErr.integrityFault => ([], IndexOneResult.buildFailed)
    | Except.ok doc =>
      if knownTypes (avus.headD sentinelAVU).targetType then
        ([EsOp.indexDoc ((avus.headD sentinelAVU).targetType ++ "_metadata") doc.id doc],
         IndexOneResult.indexed
           (idxOut ((avus.headD sentinelAVU).targetType ++ "_metadata") doc.id).isSome)
      else
        ([], IndexOneResult.skippedUnknownType)

/-- Whether an operation belongs to the batched-bulk or purge-scroll
machinery (as opposed to the synchronous single-document path). -/
def EsOp.isBulkOrScroll : EsOp → Bool
  | EsOp.bulkSubmit _ => true
  | EsOp.scrollPage _ => true
  | _ => false

/-- C6: for every object id — one whose AVUs, as the recursive query
returns them, all carry the root's `targetId` (the id itself) and its
`targetType`, `file` or `folder` — `IndexOne` fetches the object's
current AVUs; when there are none it issues exactly the two
per-indexed-type document deletes and finishes normally, logging errors
only when both deletes failed (so a `notFound` reported for either type
is treated as success); otherwise it builds one document and upserts it
with a single synchronous index request.  On every path it enqueues
nothing into a bulk write buffer and performs no purge scroll. -/
theorem indexOne_spec
    (db : String → Except Unit (List AVURecord))
    (delOut idxOut : String → String → Option EsErr)
    (id t : String) (avus : List AVURecord)
    (hdb : db id = Except.ok avus)
    (hwf : ∀ r ∈ avus, r.targetId = id ∧ r.targetType = t)
    (ht : t = "file" ∨ t = "folder") :
    (avus = [] →
      IndexOne db delOut idxOut id
        = ([EsOp.deleteDoc "file_metadata" id, EsOp.deleteDoc "folder_metadata" id],
           IndexOneResult.deleted
             ((delOut "file_metadata" id).isSome && (delOut "folder_metadata" id).isSome))) ∧
    (avus ≠ [] →
      IndexOne db delOut idxOut id
        = ([EsOp.indexDoc (t ++ "_metadata") id { id := id, avus := avus }],
           IndexOneResult.indexed ((idxOut (t ++ "_metadata") id).isSome))) ∧
    (∀ op ∈ (IndexOne db delOut idxOut id).1, op.isBulkOrScroll = false) := by
  refine ⟨?_, ?_, ?_⟩
  · intro he
    subst he
    simp [IndexOne, hdb, AVUsToIndexedObject, DeleteOne]
  · intro hne
    cases avus with
    | nil => exact absurd rfl hne
    | cons a rest =>
      have ha := hwf a (List.mem_cons_self _ _)
      have hall : rest.all
          (fun r => r.targetId == a.targetId && r.targetType == a.targetType) = true := by
        rw [List.all_eq_true]
        intro r hr
        have hrw := hwf r (List.mem_cons_of_mem _ hr)
        rw [Bool.and_eq_true, beq_iff_eq, beq_iff_eq]
        exact ⟨by rw [hrw.1, ha.1], by rw [hrw.2, ha.2]⟩
      have hbuild : AVUsToIndexedObject (a :: rest)
          = Except.ok { id := a.targetId, avus := a :: rest } := by
        simp [AVUsToIndexedObject, hall]
      have hk : knownTypes t = true := by
        rcases ht with h | h <;> simp [knownTypes, h]
      simp [IndexOne, hdb, hbuild, hk, ha.1, ha.2]
  · intro op hop
    simp only [IndexOne, hdb] at hop
    rcases hb : AVUsToIndexedObject avus with e | doc
    · cases e <;> simp only [hb] at hop <;> simp [DeleteOne] at hop
      rcases hop with h | h <;> rw [h] <;> rfl
    · simp only [hb] at hop
      by_cases hk : knownTypes ((avus.head?.getD sentinelAVU).targetType) = true
      · simp [hk] at hop
        rw [hop]
        rfl
      · simp [hk] at hop

/-- Witness for C6: the delete path for an object with no AVUs (one
delete reporting `notFound` is tolerated: no error logged), and the
single-request upsert path for a folder object. -/
theorem indexOne_spec_witness :
    IndexOne (fun _ => Except.ok [])
        (fun ty _ => if ty == "file_metadata" then some EsErr.notFound else none)
        (fun _ _ => none) "X1"
      = ([EsOp.deleteDoc "file_metadata" "X1", EsOp.deleteDoc "folder_metadata" "X1"],
         IndexOneResult.deleted false) ∧
    IndexOne (fun _ => Except.ok [mkRow "7" "F1" "folder"])
        (fun _ _ => none) (fun _ _ => none) "F1"
      = ([EsOp.indexDoc "folder_metadata" "F1" { id := "F1", avus := [mkRow "7" "F1" "folder"] }],
         IndexOneResult.indexed false) :=
  ⟨(indexOne_spec (fun _ => Except.ok [])
      (fun ty _ => if ty == "file_metadata" then some EsErr.notFound else none)
      (fun _ _ => none) "X1" "file" [] rfl (by simp) (Or.inl rfl)).1 rfl,
   (indexOne_spec (fun _ => Except.ok [mkRow "7" "F1" "folder"])
      (fun _ _ => none) (fun _ _ => none) "F1" "folder" [mkRow "7" "F1" "folder"] rfl
      (by decide) (Or.inr rfl)).2.1 (by decide)⟩

/-! ## Full rebuild (`Elasticer.IndexEverything`) -/

/-- The per-group body of `IndexEverything`'s loop (the statements after
a successful `cursor.Next`): an error from the document builder is
logged and breaks the loop; a known-type document is enqueued on the
bulk indexer, an `Add` error is logged and breaks; unknown types are
skipped silently.  `k` continues the loop with the updated indexer; a
`false` flag records a break on a logged error. -/
def rebuildGroupStep (submitOk : List BulkRequest → Bool) (b : BulkIndexer)
    (avus : List AVURecord) (k : BulkIndexer → BulkIndexer × List EsOp × Bool) :
    BulkIndexer × List EsOp × Bool :=
  match AVUsToIndexedObject avus with
  | Except.error _ => (b, [], false)
  | Except.ok doc =>
    if knownTypes (avus.headD sentinelAVU).targetType then
      match BulkIndexer.Add submitOk b (BulkRequest.indexReq
          ((avus.headD sentinelAVU).targetType ++ "_metadata") doc.id doc) with
      | (Except.error _, b', ops) => (b', ops, false)
      | (Except.ok _, b', ops) =>
        let r := k b'
        (r.1, ops ++ r.2.1, r.2.2)
    else
      k b

/-- The `for` loop of `IndexEverything`: pull one group from the cursor;
`EOS` logs "Done all rows, finishing." and breaks (normal completion,
flag `true`); otherwise run the per-group body and continue.  Fuel
bounds the iteration count, as for `drainCursor`. -/
def indexEverythingLoop (submitOk : List BulkRequest → Bool) :
    Nat → ObjectCursor → BulkIndexer → BulkIndexer × List EsOp × Bool
  | 0, _, b => (b, [], false)
  | fuel + 1, o, b =>
    match cursorNext o with
    | (CursorSignal.eos _, _) => (b, [], true)
    | (CursorSignal.group avus, o') =>
      rebuildGroupStep submitOk b avus (indexEverythingLoop submitOk fuel o')

/-- `Elasticer.IndexEverything` over a row stream: run the loop with a
fresh 1000-request bulk indexer, then the deferred `indexer.Flush()`
(which runs on every exit path of the Go function, break or normal).
Returns the operations performed and whether the loop completed normally
(the `EOS` "Done all rows" path) rather than breaking on a logged error. -/
def IndexEverything (submitOk : List BulkRequest → Bool) (rows : List AVURecord) :
    List EsOp × Bool :=
  let r := indexEverythingLoop submitOk (rows.length + 1) (newObjectCursor rows)
    (NewBulkIndexer 1000)
  (r.2.1 ++ (r.1.Flush submitOk).2.2, r.2.2)

/-- Specification-side counterpart of the rebuild loop, over a ready list
of groups. -/
def processGroups (submitOk : List BulkRequest → Bool) :
    List (List AVURecord) → BulkIndexer → BulkIndexer × List EsOp × Bool
  | [], b => (b, [], true)
  | g :: gs, b => rebuildGroupStep submitOk b g (processGroups submitOk gs)

/-- The rebuild loop on an exhausted cursor finishes normally at once. -/
theorem indexEverythingLoop_dead (submitOk : List BulkRequest → Bool) (fuel : Nat)
    (o : ObjectCursor) (b : BulkIndexer) (h : o.moreRows = false) :
    indexEverythingLoop submitOk (fuel + 1) o b = (b, [], true) := by
  rw [show indexEverythingLoop submitOk (fuel + 1) o b
        = (match cursorNext o with
           | (CursorSignal.eos _, _) => (b, [], true)
           | (CursorSignal.group avus, o') =>
             rebuildGroupStep submitOk b avus (indexEverythingLoop submitOk fuel o'))
        from rfl]
  simp [cursorNext, h]

/-- One iteration of the rebuild loop from a state whose `Next` yields a
group. -/
theorem indexEverythingLoop_step (submitOk : List BulkRequest → Bool) (fuel : Nat)
    (o o' : ObjectCursor) (g : List AVURecord) (b : BulkIndexer)
    (h : cursorNext o = (CursorSignal.group g, o')) :
    indexEverythingLoop submitOk (fuel + 1) o b
      = rebuildGroupStep submitOk b g (indexEverythingLoop submitOk fuel o') := by
  rw [show indexEverythingLoop submitOk (fuel + 1) o b
        = (match cursorNext o with
           | (CursorSignal.eos _, _) => (b, [], true)
           | (CursorSignal.group avus, o') =>
             rebuildGroupStep submitOk b avus (indexEverythingLoop submitOk fuel o'))
        from rfl, h]

/-- From a mid-run cursor state, the rebuild loop behaves as
`processGroups` over the chunks of the remaining rows. -/
theorem indexEverythingLoop_mid (submitOk : List BulkRequest → Bool) :
    ∀ (fuel : Nat) (last : AVURecord) (rows : List AVURecord) (b : BulkIndexer),
      last.targetId ≠ "" → (∀ r ∈ rows, r.targetId ≠ "") → rows.length + 1 < fuel →
      indexEverythingLoop submitOk fuel (midCursor last rows) b
        = processGroups submitOk (chunksBy (last :: rows)) b := by
  intro fuel
  induction fuel with
  | zero =>
    intro last rows b _ _ hlen
    exact absurd hlen (Nat.not_lt_zero _)
  | succ n ih =>
    intro last rows b hlast hrows hlen
    rw [indexEverythingLoop_step submitOk n _ _ _ b (cursorNext_mid last rows hlast hrows),
      show chunksBy (last :: rows)
          = (last :: rows.takeWhile (fun r => r.targetId == last.targetId)) ::
              chunksBy (rows.dropWhile (fun r => r.targetId == last.targetId)) from by
        rw [chunksBy],
      show processGroups submitOk
          ((last :: rows.takeWhile (fun r => r.targetId == last.targetId)) ::
            chunksBy (rows.dropWhile (fun r => r.targetId == last.targetId))) b
        = rebuildGroupStep submitOk b
            (last :: rows.takeWhile (fun r => r.targetId == last.targetId))
            (processGroups submitOk
              (chunksBy (rows.dropWhile (fun r => r.targetId == last.targetId)))) from rfl]
    refine congrArg _ (funext fun b' => ?_)
    cases hdw : rows.dropWhile (fun r => r.targetId == last.targetId) with
    | nil =>
      obtain ⟨m, rfl⟩ : ∃ m, n = m + 1 := ⟨n - 1, by omega⟩
      simp only [List.tail_nil, List.isEmpty_nil, Bool.not_true]
      rw [indexEverythingLoop_dead submitOk m _ b' rfl,
        show chunksBy [] = [] from by rw [chunksBy]]
      rfl
    | cons bb tl =>
      simp only [List.tail_cons, List.headD_cons, List.isEmpty_cons, Bool.not_false]
      have hbmem : bb ∈ rows := by
        have hm : bb ∈ rows.dropWhile (fun r => r.targetId == last.targetId) := by
          rw [hdw]; exact List.mem_cons_self _ _
        exact (List.dropWhile_sublist _).mem hm
      have htl : ∀ r ∈ tl, r.targetId ≠ "" := by
        intro r hr
        have hm : r ∈ rows.dropWhile (fun r => r.targetId == last.targetId) := by
          rw [hdw]; exact List.mem_cons_of_mem _ hr
        exact hrows r ((List.dropWhile_sublist _).mem hm)
      have hlen' : tl.length + 1 < n := by
        have h1 : tl.length + 1
            = (rows.dropWhile (fun r => r.targetId == last.targetId)).length := by
          rw [hdw]; rfl
        have h2 : (rows.dropWhile (fun r => r.targetId == last.targetId)).length
            ≤ rows.length := (List.dropWhile_sublist _).length_le
        omega
      exact ih bb tl b' (hrows bb hbmem) htl hlen'

/-- The rebuild loop inspects the cursor only through `cursorNext`. -/
theorem indexEverythingLoop_congr (submitOk : List BulkRequest → Bool) (fuel : Nat)
    (o₁ o₂ : ObjectCursor) (b : BulkIndexer) (h : cursorNext o₁ = cursorNext o₂) :
    indexEverythingLoop submitOk (fuel + 1) o₁ b
      = indexEverythingLoop submitOk (fuel + 1) o₂ b := by
  simp only [indexEverythingLoop, h]

/-- `IndexEverything` is `processGroups` over the chunks of the stream,
followed by the deferred flush of the final indexer state. -/
theorem IndexEverything_eq_processGroups (submitOk : List BulkRequest → Bool)
    (rows : List AVURecord) (hrows : ∀ r ∈ rows, r.targetId ≠ "") :
    IndexEverything submitOk rows
      = ((processGroups submitOk (chunksBy rows) (NewBulkIndexer 1000)).2.1
          ++ (((processGroups submitOk (chunksBy rows) (NewBulkIndexer 1000)).1.Flush
                submitOk)).2.2,
         (processGroups submitOk (chunksBy rows) (NewBulkIndexer 1000)).2.2) := by
  cases rows with
  | nil =>
    rw [show chunksBy [] = [] from by rw [chunksBy]]
    rfl
  | cons a rest =>
    have ha : a.targetId ≠ "" := hrows a (List.mem_cons_self _ _)
    have hrest : ∀ r ∈ rest, r.targetId ≠ "" := fun r hr =>
      hrows r (List.mem_cons_of_mem _ hr)
    have hloop : indexEverythingLoop submitOk ((a :: rest).length + 1)
        (newObjectCursor (a :: rest)) (NewBulkIndexer 1000)
        = processGroups submitOk (chunksBy (a :: rest)) (NewBulkIndexer 1000) := by
      rw [show (a :: rest).length + 1 = rest.length + 1 + 1 from rfl,
        indexEverythingLoop_congr submitOk (rest.length + 1) _ _ _
          (cursorNext_init_cons a rest ha)]
      exact indexEverythingLoop_mid submitOk (rest.length + 2) a rest _ ha hrest
        (by omega)
    simp only [IndexEverything, hloop]

/-- Evaluation of the per-group body when the document builder
succeeds. -/
theorem rebuildGroupStep_okCase (submitOk : List BulkRequest → Bool) (b : BulkIndexer)
    (g : List AVURecord) (k : BulkIndexer → BulkIndexer × List EsOp × Bool)
    (doc : IndexedObject) (hb : AVUsToIndexedObject g = Except.ok doc) :
    rebuildGroupStep submitOk b g k
      = (if knownTypes (g.headD sentinelAVU).targetType then
          match BulkIndexer.Add submitOk b (BulkRequest.indexReq
              ((g.headD sentinelAVU).targetType ++ "_metadata") doc.id doc) with
          | (Except.error _, b', ops) => (b', ops, false)
          | (Except.ok _, b', ops) => ((k b').1, ops ++ (k b').2.1, (k b').2.2)
        else k b) := by
  rw [rebuildGroupStep, hb]

/-- A fully processed prefix composes: if `processGroups` runs a group
list to normal completion, processing that list followed by more groups
equals processing the prefix and continuing with the rest from the
resulting indexer state. -/
theorem processGroups_append (submitOk : List BulkRequest → Bool)
    (gs₁ : List (List AVURecord)) :
    ∀ (gs₂ : List (List AVURecord)) (b b1 : BulkIndexer) (ops1 : List EsOp),
      processGroups submitOk gs₁ b = (b1, ops1, true) →
      processGroups submitOk (gs₁ ++ gs₂) b
        = ((processGroups submitOk gs₂ b1).1,
           ops1 ++ (processGroups submitOk gs₂ b1).2.1,
           (processGroups submitOk gs₂ b1).2.2) := by
  induction gs₁ with
  | nil =>
    intro gs₂ b b1 ops1 h
    have h' : (b, ([] : List EsOp), true) = (b1, ops1, true) := h
    simp only [Prod.mk.injEq] at h'
    rw [List.nil_append, ← h'.1, ← h'.2.1, List.nil_append]
  | cons g gs ih =>
    intro gs₂ b b1 ops1 h
    rw [show processGroups submitOk (g :: gs) b
          = rebuildGroupStep submitOk b g (processGroups submitOk gs) from rfl] at h
    rw [show (g :: gs) ++ gs₂ = g :: (gs ++ gs₂) from rfl,
      show processGroups submitOk (g :: (gs ++ gs₂)) b
          = rebuildGroupStep submitOk b g (processGroups submitOk (gs ++ gs₂)) from rfl]
    rcases hb : AVUsToIndexedObject g with e | doc
    · rw [show rebuildGroupStep submitOk b g (processGroups submitOk gs)
            = (b, [], false) from by rw [rebuildGroupStep, hb]] at h
      simp only [Prod.mk.injEq] at h
      exact absurd h.2.2 (by decide)
    · by_cases hk : knownTypes (g.headD sentinelAVU).targetType = true
      · rcases hadd : BulkIndexer.Add submitOk b (BulkRequest.indexReq
            ((g.headD sentinelAVU).targetType ++ "_metadata") doc.id doc)
          with ⟨res, b', ops⟩
        cases res with
        | error u =>
          rw [show rebuildGroupStep submitOk b g (processGroups submitOk gs)
                = (b', ops, false) from by
              rw [rebuildGroupStep_okCase submitOk b g _ doc hb, if_pos hk, hadd]] at h
          simp only [Prod.mk.injEq] at h
          exact absurd h.2.2 (by decide)
        | ok u =>
          have hstep : ∀ (k : BulkIndexer → BulkIndexer × List EsOp × Bool),
              rebuildGroupStep submitOk b g k = ((k b').1, ops ++ (k b').2.1, (k b').2.2) := by
            intro k
            rw [rebuildGroupStep_okCase submitOk b g k doc hb, if_pos hk, hadd]
          rw [hstep] at h
          rcases hgs : processGroups submitOk gs b' with ⟨bm, opsm, fm⟩
          rw [hgs] at h
          obtain ⟨h1, h2, h3⟩ : bm = b1 ∧ ops ++ opsm = ops1 ∧ fm = true := by
            simpa using h
          subst h3
          rw [hstep, ih gs₂ b' bm opsm hgs, ← h1, ← h2, List.append_assoc]
      · have hstep : ∀ (k : BulkIndexer → BulkIndexer × List EsOp × Bool),
            rebuildGroupStep submitOk b g k = k b := by
          intro k
          rw [rebuildGroupStep_okCase submitOk b g k doc hb, if_neg hk]
        rw [hstep] at h
        rw [hstep]
        exact ih gs₂ b b1 ops1 h

/-- C2 counterexample: a stream whose first group mixes `targetType`s (a
data-integrity fault: building that object's document fails) followed by
a well-formed object "b".  The rebuild run aborts: it emits no index
mutation at all — in particular none for "b" (the only operation is the
deferred flush of the empty batch) — and ends on the error-break path
(`false`), whereas the claim requires processing to continue with the
subsequent objects of the run. -/
theorem indexEverything_abort_counterexample :
    IndexEverything (fun _ => true)
        [mkRow "1" "a" "file", mkRow "2" "a" "folder", mkRow "3" "b" "file"]
      = ([EsOp.bulkSubmit []], false) := by decide

/-- An `Add` that returns an error did so because the enqueue-triggered
flush's submission failed: the one operation performed is the attempted
submission of the whole batch — old queue plus the newly added mutation —
and the indexer retains exactly that batch. -/
theorem add_error_retains (submitOk : List BulkRequest → Bool) (b : BulkIndexer)
    (r : BulkRequest) (b' : BulkIndexer) (ops : List EsOp)
    (h : BulkIndexer.Add submitOk b r = (Except.error (), b', ops)) :
    b'.bulkService.requests = b.bulkService.requests ++ [r] ∧
    ops = [EsOp.bulkSubmit (b.bulkService.requests ++ [r])] := by
  by_cases hthr : b.bulkSize ≤ b.bulkService.requests.length + 1
  · by_cases hok : submitOk (b.bulkService.requests ++ [r]) = true
    · simp [BulkIndexer.Add, BulkIndexer.Flush, hthr, hok] at h
    · simp only [Bool.not_eq_true] at hok
      simp [BulkIndexer.Add, BulkIndexer.Flush, hthr, hok] at h
      rw [← h.1, ← h.2]
      exact ⟨rfl, rfl⟩
  · simp [BulkIndexer.Add, hthr] at h

/-- `Add` at the threshold with a failing submission: the error is
returned and the appended batch is retained. -/
theorem add_fails_at_threshold (submitOk : List BulkRequest → Bool) (b : BulkIndexer)
    (r : BulkRequest)
    (hthr : b.bulkSize ≤ b.bulkService.requests.length + 1)
    (hfail : submitOk (b.bulkService.requests ++ [r]) = false) :
    BulkIndexer.Add submitOk b r
      = (Except.error (), { b with bulkService := ⟨b.bulkService.requests ++ [r]⟩ },
         [EsOp.bulkSubmit (b.bulkService.requests ++ [r])]) := by
  simp [BulkIndexer.Add, BulkIndexer.Flush, hthr, hfail]

/-- `Flush` always performs exactly one submission of the whole queue. -/
theorem flush_submits_whole_queue (submitOk : List BulkRequest → Bool) (b : BulkIndexer) :
    (b.Flush submitOk).2.2 = [EsOp.bulkSubmit b.bulkService.requests] := by
  by_cases h : submitOk b.bulkService.requests = true
  · simp [BulkIndexer.Flush, h]
  · simp only [Bool.not_eq_true] at h
    simp [BulkIndexer.Flush, h]

/-- C2 (amended): during a full rebuild, a failure in a per-object step —
building one object's document, or enqueuing its index mutation (which
fails exactly when the enqueue-triggered flush's submission fails) — is
caught and logged but BREAKS the enclosing loop: the objects before the
failure are processed, the subsequent objects of the run are not, and
the run ends on the error path instead of normal completion.  After a
build failure the failing object contributes nothing and the deferred
flush merely drains the partial batch; after an enqueue failure the
failed batch — the partial batch plus the failing object's mutation — is
retained by the indexer, and the deferred flush resubmits exactly that
batch (so that object's mutation may still reach the index on the
retry). -/
theorem indexEverything_stops_at_failed_step
    (submitOk : List BulkRequest → Bool) (rows : List AVURecord)
    (hids : ∀ r ∈ rows, r.targetId ≠ "")
    (gs₁ gs₂ : List (List AVURecord)) (bad : List AVURecord)
    (hchunks : chunksBy rows = gs₁ ++ bad :: gs₂)
    (b1 : BulkIndexer) (ops1 : List EsOp)
    (h1 : processGroups submitOk gs₁ (NewBulkIndexer 1000) = (b1, ops1, true)) :
    (∀ e : ModelErr, AVUsToIndexedObject bad = Except.error e →
      IndexEverything submitOk rows = (ops1 ++ (b1.Flush submitOk).2.2, false)) ∧
    (∀ (doc : IndexedObject) (b2 : BulkIndexer) (ops2 : List EsOp),
      AVUsToIndexedObject bad = Except.ok doc →
      knownTypes (bad.headD sentinelAVU).targetType = true →
      BulkIndexer.Add submitOk b1 (BulkRequest.indexReq
          ((bad.headD sentinelAVU).targetType ++ "_metadata") doc.id doc)
        = (Except.error (), b2, ops2) →
      IndexEverything submitOk rows = (ops1 ++ ops2 ++ (b2.Flush submitOk).2.2, false) ∧
      b2.bulkService.requests = b1.bulkService.requests
          ++ [BulkRequest.indexReq ((bad.headD sentinelAVU).targetType ++ "_metadata")
               doc.id doc] ∧
      (b2.Flush submitOk).2.2 = [EsOp.bulkSubmit b2.bulkService.requests]) := by
  have hcommon : ∀ (bq : BulkIndexer) (opsq : List EsOp),
      processGroups submitOk (bad :: gs₂) b1 = (bq, opsq, false) →
      IndexEverything submitOk rows = (ops1 ++ (opsq ++ (bq.Flush submitOk).2.2), false) := by
    intro bq opsq hq
    rw [IndexEverything_eq_processGroups submitOk rows hids, hchunks,
      processGroups_append submitOk gs₁ (bad :: gs₂) (NewBulkIndexer 1000) b1 ops1 h1, hq]
    simp [List.append_assoc]
  constructor
  · intro e hbad
    have hq : processGroups submitOk (bad :: gs₂) b1 = (b1, [], false) := by
      rw [show processGroups submitOk (bad :: gs₂) b1
            = rebuildGroupStep submitOk b1 bad (processGroups submitOk gs₂) from rfl,
        rebuildGroupStep, hbad]
    have h := hcommon b1 [] hq
    simpa using h
  · intro doc b2 ops2 hbad hk hadd
    refine ⟨?_, (add_error_retains submitOk b1 _ b2 ops2 hadd).1,
      flush_submits_whole_queue submitOk b2⟩
    have hq : processGroups submitOk (bad :: gs₂) b1 = (b2, ops2, false) := by
      rw [show processGroups submitOk (bad :: gs₂) b1
            = rebuildGroupStep submitOk b1 bad (processGroups submitOk gs₂) from rfl,
        rebuildGroupStep_okCase submitOk b1 bad _ doc hbad, if_pos hk, hadd]
    rw [hcommon b2 ops2 hq, List.append_assoc]

/-- The index mutation the rebuild loop enqueues for a one-row group. -/
def singletonReq (r : AVURecord) : BulkRequest :=
  BulkRequest.indexReq (r.targetType ++ "_metadata") r.targetId
    { id := r.targetId, avus := [r] }

/-- When consecutive rows never share a `targetId`, every chunk is a
singleton. -/
theorem chunksBy_singletons (l : List AVURecord)
    (h : l.Chain' (fun x y => x.targetId ≠ y.targetId)) :
    chunksBy l = l.map (fun r => [r]) := by
  induction l using chunksBy.induct with
  | case1 => simp [chunksBy]
  | case2 a rest ih =>
    have hstep : rest.takeWhile (fun r => r.targetId == a.targetId) = []
        ∧ rest.dropWhile (fun r => r.targetId == a.targetId) = rest := by
      cases rest with
      | nil => exact ⟨rfl, rfl⟩
      | cons c cs =>
        have hac : a.targetId ≠ c.targetId := (List.chain'_cons.mp h).1
        have hbeq : ¬ ((c.targetId == a.targetId) = true) := by
          simp only [beq_iff_eq]
          exact fun he => hac he.symm
        exact ⟨List.takeWhile_cons_of_neg hbeq, List.dropWhile_cons_of_neg hbeq⟩
    rw [hstep.2] at ih
    rw [chunksBy, hstep.1, hstep.2, ih h.tail, List.map_cons]

/-- An `Add` strictly below the threshold just appends: no flush, no
operation. -/
theorem add_below_threshold (submitOk : List BulkRequest → Bool) (b : BulkIndexer)
    (r : BulkRequest) (h : ¬ (b.bulkSize ≤ b.bulkService.requests.length + 1)) :
    BulkIndexer.Add submitOk b r
      = (Except.ok (), { b with bulkService := ⟨b.bulkService.requests ++ [r]⟩ }, []) := by
  simp [BulkIndexer.Add, h]

/-- Evaluation of the per-group body when the build succeeds, the type is
known, and the `Add` goes through: the continuation runs on the updated
indexer. -/
theorem rebuildGroupStep_add_ok (submitOk : List BulkRequest → Bool) (b : BulkIndexer)
    (g : List AVURecord) (k : BulkIndexer → BulkIndexer × List EsOp × Bool)
    (doc : IndexedObject) (b' : BulkIndexer) (ops : List EsOp)
    (hb : AVUsToIndexedObject g = Except.ok doc)
    (hk : knownTypes (g.headD sentinelAVU).targetType = true)
    (hadd : BulkIndexer.Add submitOk b (BulkRequest.indexReq
        ((g.headD sentinelAVU).targetType ++ "_metadata") doc.id doc)
      = (Except.ok (), b', ops)) :
    rebuildGroupStep submitOk b g k = ((k b').1, ops ++ (k b').2.1, (k b').2.2) := by
  rw [rebuildGroupStep_okCase submitOk b g k doc hb, if_pos hk, hadd]

/-- `processGroups` on singleton known-type groups that stay strictly
below the threshold: every mutation is enqueued, no flush is triggered,
and the run completes normally. -/
theorem processGroups_singletons (submitOk : List BulkRequest → Bool) :
    ∀ (rs : List AVURecord) (b : BulkIndexer),
      (∀ r ∈ rs, knownTypes r.targetType = true) →
      rs.length + b.bulkService.requests.length < b.bulkSize →
      processGroups submitOk (rs.map (fun r => [r])) b
        = (⟨b.bulkSize, ⟨b.bulkService.requests ++ rs.map singletonReq⟩⟩, [], true) := by
  intro rs
  induction rs with
  | nil =>
    intro b _ _
    show (b, ([] : List EsOp), true) = _
    rw [List.map_nil, List.append_nil]
  | cons r rs ih =>
    intro b hk hlen
    simp only [List.length_cons] at hlen
    have hb : AVUsToIndexedObject [r] = Except.ok { id := r.targetId, avus := [r] } := rfl
    have hk1 : knownTypes ([r].headD sentinelAVU).targetType = true :=
      hk r (List.mem_cons_self _ _)
    have hcond : ¬ (b.bulkSize ≤ b.bulkService.requests.length + 1) := by omega
    rw [List.map_cons,
      show processGroups submitOk ([r] :: rs.map (fun x => [x])) b
          = rebuildGroupStep submitOk b [r] (processGroups submitOk (rs.map (fun x => [x])))
        from rfl,
      rebuildGroupStep_add_ok submitOk b [r]
        (processGroups submitOk (rs.map (fun x => [x])))
        { id := r.targetId, avus := [r] } _ _ hb hk1
        (add_below_threshold submitOk b _ hcond),
      ih _ (fun x hx => hk x (List.mem_cons_of_mem _ hx))
        (by simpa [List.length_append] using
          (by omega : rs.length + (b.bulkService.requests.length + 1) < b.bulkSize))]
    simp [singletonReq, List.append_assoc]

/-- Rows alternating between `targetId` "a" (even index) and "b" (odd
index); used to drive the bulk indexer to its threshold with singleton
groups. -/
def altRow (i : Nat) : AVURecord :=
  mkRow "" (if i % 2 == 0 then "a" else "b") "file"

/-- The first `n` alternating rows. -/
def altRows (n : Nat) : List AVURecord := (List.range n).map altRow

theorem altRows_targetId_ne (n : Nat) : ∀ r ∈ altRows n, r.targetId ≠ "" := by
  intro r hr
  obtain ⟨i, -, rfl⟩ := List.mem_map.mp hr
  show (if i % 2 == 0 then "a" else "b") ≠ ""
  split <;> decide

theorem altRows_known (n : Nat) : ∀ r ∈ altRows n, knownTypes r.targetType = true := by
  intro r hr
  obtain ⟨i, -, rfl⟩ := List.mem_map.mp hr
  rfl

theorem altRows_chain (n : Nat) :
    (altRows n).Chain' (fun x y => x.targetId ≠ y.targetId) := by
  rw [altRows, List.chain'_map]
  cases n with
  | zero => simp
  | succ m =>
    refine (List.chain'_range_succ _ m).mpr ?_
    intro k _
    show (if k % 2 == 0 then "a" else "b") ≠ (if (k + 1) % 2 == 0 then "a" else "b")
    rcases Nat.mod_two_eq_zero_or_one k with h | h
    · have h2 : (k + 1) % 2 = 1 := by omega
      simp [h, h2]
    · have h2 : (k + 1) % 2 = 0 := by omega
      simp [h, h2]

theorem altRows_length (n : Nat) : (altRows n).length = n := by
  simp [altRows]

theorem altRows_split_1000 : altRows 1000 = altRows 999 ++ [altRow 999] := by
  rw [altRows, altRows, show (1000 : Nat) = 999 + 1 from rfl, List.range_succ,
    List.map_append, List.map_cons, List.map_nil]

set_option maxRecDepth 8000 in
theorem chunksBy_altRows_split :
    chunksBy (altRows 1000)
      = (altRows 999).map (fun r => [r]) ++ [altRow 999] :: [] := by
  rw [chunksBy_singletons _ (altRows_chain 1000), altRows_split_1000, List.map_append,
    List.map_cons, List.map_nil]

set_option maxRecDepth 8000 in
/-- Witness for C2 (amended), exercising both failure modes.  Build
failure: a good "a" object is processed, a mixed-type "b" bundle kills
the run, the later objects are skipped and the partial batch is flushed.
Enqueue failure: 999 alternating singleton objects fill the queue to one
below the threshold; the 1000th object's `Add` triggers a flush whose
submission fails, the run aborts, the indexer retains the 1000-mutation
batch — including the 1000th object's — and the deferred flush resubmits
exactly that batch. -/
theorem indexEverything_stops_at_failed_step_witness :
    IndexEverything (fun _ => true)
        [mkRow "1" "a" "file", mkRow "2" "b" "file", mkRow "3" "b" "folder"]
      = ([] ++ ((⟨1000, ⟨[BulkRequest.indexReq "file_metadata" "a"
            { id := "a", avus := [mkRow "1" "a" "file"] }]⟩⟩ : BulkIndexer).Flush
              (fun _ => true)).2.2,
         false) ∧
    IndexEverything (fun _ => false) (altRows 1000)
      = ([] ++ ([EsOp.bulkSubmit ((altRows 999).map singletonReq ++ [singletonReq (altRow 999)])]
          ++ ((⟨1000, ⟨(altRows 999).map singletonReq ++ [singletonReq (altRow 999)]⟩⟩ :
                BulkIndexer).Flush (fun _ => false)).2.2),
         false) ∧
    ((⟨1000, ⟨(altRows 999).map singletonReq ++ [singletonReq (altRow 999)]⟩⟩ :
        BulkIndexer).Flush (fun _ => false)).2.2
      = [EsOp.bulkSubmit ((altRows 999).map singletonReq ++ [singletonReq (altRow 999)])] := by
  have hA := (indexEverything_stops_at_failed_step (fun _ => true)
    [mkRow "1" "a" "file", mkRow "2" "b" "file", mkRow "3" "b" "folder"]
    (by decide)
    [[mkRow "1" "a" "file"]] [] [mkRow "2" "b" "file", mkRow "3" "b" "folder"]
    (by rw [← cursorRun_eq_chunksBy _ (by decide)]; decide)
    ⟨1000, ⟨[BulkRequest.indexReq "file_metadata" "a"
      { id := "a", avus := [mkRow "1" "a" "file"] }]⟩⟩ []
    (by decide)).1 ModelErr.integrityFault rfl
  have hq999 : ((⟨1000, ⟨(altRows 999).map singletonReq⟩⟩ : BulkIndexer)
      |>.bulkService.requests.length) = 999 := by
    show ((altRows 999).map singletonReq).length = 999
    rw [List.length_map, altRows_length]
  have h1 : processGroups (fun _ => false) ((altRows 999).map (fun r => [r]))
      (NewBulkIndexer 1000)
      = (⟨1000, ⟨(altRows 999).map singletonReq⟩⟩, [], true) := by
    have h := processGroups_singletons (fun _ => false) (altRows 999) (NewBulkIndexer 1000)
      (altRows_known 999)
      (by
        show (altRows 999).length + ([] : List BulkRequest).length < 1000
        rw [altRows_length]
        decide)
    simpa [NewBulkIndexer] using h
  have hadd := add_fails_at_threshold (fun _ => false)
    ⟨1000, ⟨(altRows 999).map singletonReq⟩⟩ (singletonReq (altRow 999))
    (by rw [hq999]) rfl
  have hB := (indexEverything_stops_at_failed_step (fun _ => false) (altRows 1000)
    (altRows_targetId_ne 1000)
    ((altRows 999).map (fun r => [r])) [] [altRow 999]
    chunksBy_altRows_split
    ⟨1000, ⟨(altRows 999).map singletonReq⟩⟩ [] h1).2
    { id := (altRow 999).targetId, avus := [altRow 999] }
    ⟨1000, ⟨(altRows 999).map singletonReq ++ [singletonReq (altRow 999)]⟩⟩
    [EsOp.bulkSubmit ((altRows 999).map singletonReq ++ [singletonReq (altRow 999)])]
    rfl rfl hadd
  exact ⟨hA, hB.1, hB.2.2⟩

/-! ## Purge and reindex (`PurgeType`, `PurgeIndex`, `Reindex`)

The scroll over one indexed type is embedded as the list of hit-id pages
it serves, followed by a terminator: `io.EOF` (normal completion) or
another error (`scrollErr = true`), the mid-scroll failure case.
`logrus`' `log.Fatal` exits the process (`os.Exit(1)`), on which
deferred calls — the indexer flush — do not run; the embedding records
this as an explicit process-exit flag. -/

/-- The per-page hit loop of `PurgeType`: for each hit id, query
`GetObjectAVUs`; a query error is logged and the loop continues; an
object with no AVUs left gets a bulk delete enqueued, an `Add` error
being logged and the loop continuing too. -/
def purgeHits (db : String → Except Unit (List AVURecord))
    (submitOk : List BulkRequest → Bool) (t : String) :
    List String → BulkIndexer → BulkIndexer × List EsOp
  | [], b => (b, [])
  | hid :: rest, b =>
    match db hid with
    | Except.error _ => purgeHits db submitOk t rest b
    | Except.ok avus =>
      if avus.isEmpty then
        let a := BulkIndexer.Add submitOk b (BulkRequest.deleteReq t hid)
        let r := purgeHits db submitOk t rest a.2.1
        (r.1, a.2.2 ++ r.2)
      else
        purgeHits db submitOk t rest b

/-- `Elasticer.PurgeType`: iterate `scanner.Do`; each call serves one
page of hits (recorded as a `scrollPage` operation) which the hit loop
processes; the final call yields `io.EOF` (loop break, success) or a
scroll failure, which is returned to the caller. -/
def PurgeType (db : String → Except Unit (List AVURecord))
    (submitOk : List BulkRequest → Bool) (t : String) :
    List (List String) → Bool → BulkIndexer → Except Unit Unit × BulkIndexer × List EsOp
  | [], scrollErr, b =>
    ((if scrollErr then Except.error () else Except.ok ()), b, [EsOp.scrollPage t])
  | pg :: pages, scrollErr, b =>
    let r := purgeHits db submitOk t pg b
    let rest := PurgeType db submitOk t pages scrollErr r.1
    (rest.1, rest.2.1, EsOp.scrollPage t :: r.2 ++ rest.2.2)

/-- `Elasticer.PurgeIndex`: fresh 1000-request indexer; purge
`file_metadata`, then `folder_metadata`; an error from either `PurgeType`
hits `log.Fatal` — the process exits (flag `true`) and the deferred
flush never runs; otherwise the deferred flush drains the partial
batch.  Returns (operations, final indexer, process exited?). -/
def PurgeIndex (db : String → Except Unit (List AVURecord))
    (submitOk : List BulkRequest → Bool)
    (filePages folderPages : List (List String))
    (fileScrollErr folderScrollErr : Bool) : List EsOp × BulkIndexer × Bool :=
  let p1 := PurgeType db submitOk "file_metadata" filePages fileScrollErr
    (NewBulkIndexer 1000)
  match p1.1 with
  | Except.error _ => (p1.2.2, p1.2.1, true)
  | Except.ok _ =>
    let p2 := PurgeType db submitOk "folder_metadata" folderPages folderScrollErr p1.2.1
    match p2.1 with
    | Except.error _ => (p1.2.2 ++ p2.2.2, p2.2.1, true)
    | Except.ok _ =>
      (p1.2.2 ++ p2.2.2 ++ (p2.2.1.Flush submitOk).2.2, (p2.2.1.Flush submitOk).2.1, false)

/-- `Elasticer.Reindex`: the purge phase, then the full rebuild — unless
the purge killed the process. -/
def Reindex (db : String → Except Unit (List AVURecord))
    (submitOk : List BulkRequest → Bool)
    (filePages folderPages : List (List String))
    (fileScrollErr folderScrollErr : Bool) (rows : List AVURecord) :
    List EsOp × Bool :=
  let p := PurgeIndex db submitOk filePages folderPages fileScrollErr folderScrollErr
  if p.2.2 then (p.1, true)
  else (p.1 ++ (IndexEverything submitOk rows).1, false)

/-- `PurgeType` succeeds exactly when the scroll reaches `io.EOF`. -/
theorem PurgeType_err (db : String → Except Unit (List AVURecord))
    (submitOk : List BulkRequest → Bool) (t : String) :
    ∀ (pages : List (List String)) (scrollErr : Bool) (b : BulkIndexer),
      (PurgeType db submitOk t pages scrollErr b).1
        = if scrollErr then Except.error () else Except.ok () := by
  intro pages
  induction pages with
  | nil =>
    intro scrollErr b
    rfl
  | cons pg rest ih =>
    intro scrollErr b
    exact ih scrollErr (purgeHits db submitOk t pg b).1

/-- C4 counterexample: a purge scroll over `file_metadata` that fails
mid-scroll makes `PurgeIndex` exit the whole process (`log.Fatal`), and
the reindex run stops there: the `folder_metadata` purge and the rebuild
phase (which would index object "a") never run — contradicting "the
purge for that type is aborted but the process is not aborted: the
reindex run continues". -/
theorem purge_failure_exits_counterexample :
    (PurgeIndex (fun _ => Except.ok []) (fun _ => true) [] [] true false).2.2 = true ∧
    Reindex (fun _ => Except.ok []) (fun _ => true) [] [] true false [mkRow "1" "a" "file"]
      = ([EsOp.scrollPage "file_metadata"], true) := by decide

/-- C4 (amended): a failure mid-scroll aborts the purge of that type AND
the process: `PurgeType` propagates the scroll error and `PurgeIndex`
then calls `log.Fatal`, so the process exits — the deferred flush, the
other type's purge (for a `file_metadata` failure) and the rebuild phase
never run.  `PurgeIndex` exits the process exactly when one of the two
scrolls fails. -/
theorem purge_scroll_failure_fatal
    (db : String → Except Unit (List AVURecord)) (submitOk : List BulkRequest → Bool)
    (filePages folderPages : List (List String)) (fe fo : Bool)
    (rows : List AVURecord) :
    ((PurgeIndex db submitOk filePages folderPages fe fo).2.2 = (fe || fo)) ∧
    (fe = true →
      PurgeIndex db submitOk filePages folderPages fe fo
        = ((PurgeType db submitOk "file_metadata" filePages fe (NewBulkIndexer 1000)).2.2,
           (PurgeType db submitOk "file_metadata" filePages fe (NewBulkIndexer 1000)).2.1,
           true)) ∧
    ((fe || fo) = true →
      Reindex db submitOk filePages folderPages fe fo rows
        = ((PurgeIndex db submitOk filePages folderPages fe fo).1, true)) := by
  have h1 : (PurgeType db submitOk "file_metadata" filePages fe (NewBulkIndexer 1000)).1
      = if fe then Except.error () else Except.ok () := PurgeType_err db submitOk _ _ _ _
  have hmain : (PurgeIndex db submitOk filePages folderPages fe fo).2.2 = (fe || fo) := by
    cases fe with
    | true =>
      simp only [PurgeIndex]
      rw [h1]
      rfl
    | false =>
      have h1' : (PurgeType db submitOk "file_metadata" filePages false
          (NewBulkIndexer 1000)).1 = Except.ok () := h1
      cases fo with
      | true =>
        have h2' : (PurgeType db submitOk "folder_metadata" folderPages true
            (PurgeType db submitOk "file_metadata" filePages false
              (NewBulkIndexer 1000)).2.1).1 = Except.error () :=
          PurgeType_err db submitOk _ _ _ _
        simp only [PurgeIndex]
        rw [h1', h2']
        rfl
      | false =>
        have h2' : (PurgeType db submitOk "folder_metadata" folderPages false
            (PurgeType db submitOk "file_metadata" filePages false
              (NewBulkIndexer 1000)).2.1).1 = Except.ok () :=
          PurgeType_err db submitOk _ _ _ _
        simp only [PurgeIndex]
        rw [h1', h2']
        rfl
  refine ⟨hmain, ?_, ?_⟩
  · intro hfe
    subst hfe
    simp only [PurgeIndex]
    rw [h1]
    rfl
  · intro hor
    simp only [Reindex]
    rw [hmain, hor]
    rfl

/-- Witness for C4 (amended) at a failing `file_metadata` scroll. -/
theorem purge_scroll_failure_fatal_witness :
    (PurgeIndex (fun _ => Except.ok []) (fun _ => true) [[]] [] true false).2.2 = true ∧
    Reindex (fun _ => Except.ok []) (fun _ => true) [[]] [] true false
        [mkRow "9" "c" "folder"]
      = ((PurgeIndex (fun _ => Except.ok []) (fun _ => true) [[]] [] true false).1,
         true) :=
  ⟨(purge_scroll_failure_fatal (fun _ => Except.ok []) (fun _ => true) [[]] [] true false
      [mkRow "9" "c" "folder"]).1,
   (purge_scroll_failure_fatal (fun _ => Except.ok []) (fun _ => true) [[]] [] true false
      [mkRow "9" "c" "folder"]).2.2 rfl⟩

/-! ## The incremental-mode handler (`main.go`, `doIncrementalMode`)

The consumer closure for the `incremental-update` routing key.  The
message body is embedded by its parse outcome; the broker actions the
closure performs on its delivery are recorded in order. -/

/-- Modelled from the spec: `model.UpdateMessage`, the parsed form of an
incremental message body, bearing the object id (its Go zero value has
an empty `ID`). -/
structure UpdateMessage where
  id : String
deriving Repr, DecidableEq

/-- An incremental delivery body, embedded by what `json.Unmarshal` can
make of it. -/
inductive IncomingBody where
  | wellFormed (id : String)
  | malformed
deriving Repr, DecidableEq

/-- Modelled from the spec: `json.Unmarshal(del.Body, &m)` — a
well-formed body parses to the update message, a malformed one fails
(leaving `m` at its zero value). -/
def parseUpdateMessage : IncomingBody → Except Unit UpdateMessage
  | IncomingBody.wellFormed i => Except.ok ⟨i⟩
  | IncomingBody.malformed => Except.error ()

/-- An AMQP delivery as the handler sees it: its body and its
`Redelivered` flag. -/
structure Delivery where
  body : IncomingBody
  redelivered : Bool
deriving Repr, DecidableEq

/-- A broker action performed on the delivery. -/
inductive BrokerAct where
  | ack
  | reject (requeue : Bool)
deriving Repr, DecidableEq

/-- The handler closure of `doIncrementalMode`: `m` starts at its zero
value; a parse failure logs the error and calls
`del.Reject(!del.Redelivered)` — and then falls through (there is no
early return): `es.IndexOne(d, m.ID)` runs with whatever `m` holds, and
`del.Ack(false)` is called.  Returns the broker actions in order and the
id handed to `IndexOne`. -/
def incrementalHandler (del : Delivery) : List BrokerAct × String :=
  match parseUpdateMessage del.body with
  | Except.error _ => ([BrokerAct.reject (!del.redelivered), BrokerAct.ack], "")
  | Except.ok m => ([BrokerAct.ack], m.id)

/-- C7: a malformed incremental body is rejected, with redelivery
requested exactly when the delivery is not already marked redelivered
(`Reject(!Redelivered)`): on a first delivery the reject requeues, on a
redelivered one it does not — so a malformed payload is redelivered at
most once. -/
theorem incremental_malformed_reject (del : Delivery)
    (h : del.body = IncomingBody.malformed) :
    (incrementalHandler del).1.head? = some (BrokerAct.reject (!del.redelivered)) ∧
    (del.redelivered = false →
      (incrementalHandler del).1.head? = some (BrokerAct.reject true)) ∧
    (del.redelivered = true →
      (incrementalHandler del).1.head? = some (BrokerAct.reject false)) := by
  refine ⟨?_, ?_, ?_⟩
  · simp [incrementalHandler, h, parseUpdateMessage]
  · intro hr
    simp [incrementalHandler, h, parseUpdateMessage, hr]
  · intro hr
    simp [incrementalHandler, h, parseUpdateMessage, hr]

/-- Witness for C7: a malformed first delivery is rejected with requeue,
a malformed redelivered one without. -/
theorem incremental_malformed_reject_witness :
    (incrementalHandler ⟨IncomingBody.malformed, false⟩).1.head?
      = some (BrokerAct.reject true) ∧
    (incrementalHandler ⟨IncomingBody.malformed, true⟩).1.head?
      = some (BrokerAct.reject false) :=
  ⟨(incremental_malformed_reject ⟨IncomingBody.malformed, false⟩ rfl).2.1 rfl,
   (incremental_malformed_reject ⟨IncomingBody.malformed, true⟩ rfl).2.2 rfl⟩

/-- C10: on a malformed body the handler does not return early: it
performs exactly the reject followed by an ack of the same delivery, and
still invokes the single-object update with the zero-value (empty)
object id; and every delivery, well-formed or not, ends with an ack. -/
theorem incremental_always_acks (del : Delivery) :
    (del.body = IncomingBody.malformed →
      incrementalHandler del
        = ([BrokerAct.reject (!del.redelivered), BrokerAct.ack], "")) ∧
    BrokerAct.ack ∈ (incrementalHandler del).1 ∧
    (incrementalHandler del).1.getLast? = some BrokerAct.ack := by
  rcases del with ⟨body, re⟩
  cases body with
  | wellFormed i =>
    refine ⟨?_, ?_, ?_⟩
    · intro h
      exact absurd h (by simp)
    · exact List.mem_cons_self _ _
    · rfl
  | malformed =>
    refine ⟨fun _ => rfl, ?_, ?_⟩
    · exact List.mem_cons_of_mem _ (List.mem_cons_self _ _)
    · rfl

/-- Witness for C10 at a malformed first delivery and a well-formed
one. -/
theorem incremental_always_acks_witness :
    incrementalHandler ⟨IncomingBody.malformed, false⟩
      = ([BrokerAct.reject true, BrokerAct.ack], "") ∧
    BrokerAct.ack ∈ (incrementalHandler ⟨IncomingBody.wellFormed "X1", false⟩).1 :=
  ⟨(incremental_always_acks ⟨IncomingBody.malformed, false⟩).1 rfl,
   (incremental_always_acks ⟨IncomingBody.wellFormed "X1", false⟩).2.1⟩

end Templeton
